import Mathlib

/-!
Shallow embedding of the SQL script splitter/executor of `main.go`
(repository `mutil-psql-run`).

The embedding translates, from the source:
  * the statement splitter inside `executeScript` (the `$$`-aware scan
    over the script bytes, flushing on `;` outside dollar quoting, with
    a trimmed final flush),
  * the per-statement trim/skip at the head of the execution loop,
  * the `SELECT` classification regex `(?i)^\s*SELECT` (`selectRe`),
  * the query path (per-row column map, list materialized on first row,
    scan errors printed and skipped) and the exec path
    (`LastInsertId`, then `RowsAffected`, then `"executed"`),
  * the early return on a query/exec error,
  * the per-market control flow of `main` (connect, begin, execute,
    rollback-on-error, commit/rollback by flag, one report row per
    query result).

The database driver is modelled as an oracle (`Tx`): a function from
statement text to the driver's response, so that the executor's pure
control flow over those responses is exactly the source's.
-/

namespace MRun

/-- Character class of Go's `unicode.IsSpace` restricted to the code points
relevant here (ASCII whitespace plus NEL and NBSP); used by
`strings.TrimSpace`. -/
def goSpace (c : Char) : Bool :=
  c = ' ' || c = '\t' || c = '\n' || c = '\x0b' || c = '\x0c' || c = '\r' ||
  c = '\x85' || c = '\xa0'

/-- Character class of `\s` in Go's RE2 regexp syntax: `[\t\n\f\r ]`. -/
def reSpace (c : Char) : Bool :=
  c = ' ' || c = '\t' || c = '\n' || c = '\x0c' || c = '\r'

/-- Left trim of `strings.TrimSpace`. -/
def dropSpaceL (l : List Char) : List Char := l.dropWhile goSpace

/-- Right trim of `strings.TrimSpace`. -/
def rtrimL (l : List Char) : List Char := (l.reverse.dropWhile goSpace).reverse

/-- Both-sided trim on character lists. -/
def goTrimL (l : List Char) : List Char := rtrimL (dropSpaceL l)

/-- Model of Go's `strings.TrimSpace`. -/
def goTrimSpace (s : String) : String := String.mk (goTrimL s.data)

/-- Model of `selectRe.MatchString stmt` for `selectRe = (?i)^\s*SELECT`:
after optional leading regex whitespace, the next six characters are
`SELECT` case-insensitively.  There is no word-boundary check. -/
def selectReMatch (stmt : String) : Bool :=
  ((stmt.data.dropWhile reSpace).take 6).map Char.toLower == "select".data

/-- Final flush of the splitter: when the trimmed remaining buffer is
non-empty it is appended, already trimmed, as a last statement. -/
def finishBuf (buf : List Char) : List String :=
  let s := goTrimSpace (String.mk buf)
  if s = "" then [] else [s]

/-- The splitting scan of `executeScript`: walk the script, toggling
`inDollar` on each `$$` occurrence (consuming both characters), buffering
every character, and flushing the buffer (separator included) on a `;`
seen outside dollar quoting. -/
def splitLoop : List Char → Bool → List Char → List String
  | [], _inD, buf => finishBuf buf
  | '$' :: '$' :: rest, inD, buf => splitLoop rest (!inD) (buf ++ ['$', '$'])
  | c :: rest, inD, buf =>
    if c == ';' && !inD then String.mk (buf ++ [c]) :: splitLoop rest inD []
    else splitLoop rest inD (buf ++ [c])

/-- The raw statement list produced by the splitting scan in
`executeScript` (elements flushed on `;` keep the separator and any
leading whitespace; the final flush is trimmed). -/
def split (script : String) : List String := splitLoop script.data false []

/-- The statements actually executed: the raw split composed with the
per-statement `strings.TrimSpace` and the skip of empty statements at
the head of the execution loop. -/
def splitStatements (script : String) : List String :=
  ((split script).map goTrimSpace).filter (fun s => !(s == ""))

/-- Scalar value delivered by the driver for one column (the dynamically
typed `any` scanned through `rows.Scan`). -/
inductive Val where
  | vnull
  | vint (n : Int)
  | vfloat (num den : Int)
  | vtext (s : String)
  | vbool (b : Bool)
deriving DecidableEq

/-- One row as delivered by the driver: whether `rows.Scan` returned an
error for it, and the contents of the `vals` slice after the scan. -/
structure Row where
  scanErr : Bool
  vals : List Val
deriving DecidableEq

instance {ε α : Type} [DecidableEq ε] [DecidableEq α] : DecidableEq (Except ε α)
  | .ok a, .ok b =>
    if h : a = b then .isTrue (by simp [h]) else .isFalse (by simp [h])
  | .ok _, .error _ => .isFalse (by simp)
  | .error _, .ok _ => .isFalse (by simp)
  | .error a, .error b =>
    if h : a = b then .isTrue (by simp [h]) else .isFalse (by simp [h])

/-- Introspection offered by `sql.Result`: `LastInsertId()` and
`RowsAffected()`, each either a value or an error. -/
structure ExecSummary where
  lastInsertId : Except String Int
  rowsAffected : Except String Int
deriving DecidableEq

/-- Oracle for the transaction handle: `query` models `tx.Query`
(`none` is a query error, otherwise columns plus rows) and `txExec`
models `tx.Exec` (`none` is an exec error, otherwise a summary). -/
structure Tx where
  query : String → Option (List String × List Row)
  txExec : String → Option ExecSummary

/-- Shape of the `data any` field of a `QueryResult` as the source
fills it: `nil`, a slice of row maps, a single-key map carrying the
last-insert id, a single-key map carrying the affected-row count, or
the literal string `executed`. -/
inductive DataVal where
  | null
  | rowList (rs : List (List (String × Val)))
  | lastInsertId (n : Int)
  | rowsAffected (n : Int)
  | executed
deriving DecidableEq

/-- One per-statement result, as in the source's `QueryResult` struct. -/
structure QueryResult where
  stmt : String
  data : DataVal
deriving DecidableEq

/-- The row map built for one result row: one entry per column, in
column order, pairing the column name with the scanned value (the
`vals` slice is sized to the column count, missing entries being the
zero value `nil`). -/
def buildRow (cols : List String) (vals : List Val) : List (String × Val) :=
  cols.zip (vals.take cols.length ++ List.replicate (cols.length - vals.length) Val.vnull)

/-- The accumulation step of the row loop: when `data` is still `nil`
a fresh one-element slice is created, otherwise the row is appended.
The row list is materialized on the first row only. -/
def appendRowData (d : DataVal) (row : List (String × Val)) : DataVal :=
  match d with
  | .null => .rowList [row]
  | .rowList rs => .rowList (rs ++ [row])
  | d => d

/-- The row loop of the query path: fold the rows into `data` starting
from `nil`, and count the rows whose `rows.Scan` failed (each prints a
`rows scan error` line). -/
def runSelect (cols : List String) (rws : List Row) : DataVal × Nat :=
  (rws.foldl (fun d r => appendRowData d (buildRow cols r.vals)) DataVal.null,
   (rws.filter (fun r => r.scanErr)).length)

/-- The result normalization of the exec path: `LastInsertId` if it
succeeds, else `RowsAffected` if it succeeds, else `"executed"`. -/
def summarizeExec (res : ExecSummary) : DataVal :=
  match res.lastInsertId with
  | Except.ok id => DataVal.lastInsertId id
  | Except.error _ =>
    match res.rowsAffected with
    | Except.ok cnt => DataVal.rowsAffected cnt
    | Except.error _ => DataVal.executed

/-- Outcome of running one (trimmed, non-empty) statement: a query/exec
error, or a data value together with the number of scan-error lines
printed. -/
inductive StmtOut where
  | failed
  | ok (d : DataVal) (scanErrs : Nat)
deriving DecidableEq

/-- The `SELECT` branch of the statement loop. -/
def queryPath (tx : Tx) (stmt : String) : StmtOut :=
  match tx.query stmt with
  | Option.none => .failed
  | Option.some (cols, rws) =>
    let p := runSelect cols rws
    .ok p.1 p.2

/-- The exec branch of the statement loop. -/
def execPath (tx : Tx) (stmt : String) : StmtOut :=
  match tx.txExec stmt with
  | Option.none => .failed
  | Option.some res => .ok (summarizeExec res) 0

/-- One iteration of the statement loop on an already trimmed,
non-empty statement: classify with `selectRe` and run the matching
branch. -/
def runStmt (tx : Tx) (stmt : String) : StmtOut :=
  if selectReMatch stmt then queryPath tx stmt else execPath tx stmt

/-- What `executeScript` hands back: the accumulated `results`, the
number of scan-error lines printed along the way, and whether it
returned early with a non-nil error. -/
structure ExecOutcome where
  results : List QueryResult
  scanErrLog : Nat
  failed : Bool
deriving DecidableEq

/-- The statement loop of `executeScript`: trim, skip empties, run each
statement, return early (keeping the results accumulated so far) on the
first query/exec error. -/
def execLoop (tx : Tx) : List String → ExecOutcome
  | [] => ⟨[], 0, false⟩
  | s :: rest =>
    let stmt := goTrimSpace s
    if stmt = "" then execLoop tx rest
    else
      match runStmt tx stmt with
      | .failed => ⟨[], 0, true⟩
      | .ok d n =>
        let o := execLoop tx rest
        ⟨⟨stmt, d⟩ :: o.results, n + o.scanErrLog, o.failed⟩

/-- `executeScript`: split the script and run the statement loop. -/
def executeScript (tx : Tx) (script : String) : ExecOutcome :=
  execLoop tx (split script)

/-- A cell of the report's `Result` column: either one of `main`'s
error messages, or the JSON marshalling of a result's `data`. -/
inductive Cell where
  | msg (s : String)
  | json (d : DataVal)
deriving DecidableEq

/-- One row appended to `tableData`. -/
structure ReportRow where
  market : String
  query : String
  result : Cell
deriving DecidableEq

/-- Which transaction finalizer `main` invoked for a market. -/
inductive TxAct where
  | commit
  | rollback
deriving DecidableEq

/-- Per-market inputs of one iteration of `main`'s market loop:
the SQL text selected for the market (`none` when neither the market
tag nor `ALL` is defined), whether `sql.Open` and `db.Begin` succeed,
the transaction oracle, the `--commit` flag, and whether `Commit` /
`Rollback` succeed when called. -/
structure MarketEnv where
  name : String
  sqlText : Option String
  openOk : Bool
  beginOk : Bool
  tx : Tx
  commitFlag : Bool
  commitOk : Bool
  rollbackOk : Bool

/-- One iteration of `main`'s market loop: the report rows appended for
this market, and which of commit/rollback was attempted (`none` when no
transaction was opened).  On an exec error the rollback is attempted and
the row carries the error message (a failing rollback only extends the
message); on a commit or rollback error a single error row is appended;
otherwise one row is appended per query result. -/
def runMarket (env : MarketEnv) : List ReportRow × Option TxAct :=
  match env.sqlText with
  | Option.none => ([⟨env.name, "", .msg "no SQL defined for this market"⟩], Option.none)
  | Option.some sqlText =>
    if !env.openOk then ([⟨env.name, "", .msg "connect error"⟩], Option.none)
    else if !env.beginOk then ([⟨env.name, "", .msg "begin error"⟩], Option.none)
    else
      let o := executeScript env.tx sqlText
      if o.failed then ([⟨env.name, "", .msg "exec error"⟩], Option.some .rollback)
      else if env.commitFlag then
        if !env.commitOk then ([⟨env.name, "", .msg "commit error"⟩], Option.some .commit)
        else (o.results.map (fun qr => ⟨env.name, qr.stmt, .json qr.data⟩), Option.some .commit)
      else
        if !env.rollbackOk then ([⟨env.name, "", .msg "rollback error"⟩], Option.some .rollback)
        else (o.results.map (fun qr => ⟨env.name, qr.stmt, .json qr.data⟩), Option.some .rollback)

/-- A statement text that is non-empty, free of separators and dollar
signs, and has no edge whitespace. -/
def plainStmt (s : String) : Bool :=
  !(s.data.isEmpty) && s.data.all (fun c => !(c == ';') && !(c == '$')) &&
  !(goSpace (s.data.headD 'x')) && !(goSpace (s.data.getLastD 'x'))


/-- Oracle whose queries all succeed with one column and zero rows. -/
def txEmptySelect : Tx where
  query := fun _ => Option.some (["c"], [])
  txExec := fun _ => Option.none

/-- Oracle for the short-circuit scenario: one succeeding query, one
failing exec, everything else succeeding. -/
def txC6 : Tx where
  query := fun s =>
    if s == "SELECT 1;" then Option.some (["a"], [⟨false, [Val.vint 1]⟩]) else Option.none
  txExec := fun s =>
    if s == "UPDATE t;" then Option.none else Option.some ⟨Except.error "x", Except.ok 0⟩

/-- Oracle whose exec summaries report both a last-insert id and an
affected-row count as available. -/
def txC7 : Tx where
  query := fun _ => Option.none
  txExec := fun _ => Option.some ⟨Except.ok 5, Except.ok 3⟩

/-- Oracle returning one two-row result set whose first row has a scan
error. -/
def txC8 : Tx where
  query := fun s =>
    if s == "SELECT a FROM t" then
      Option.some (["a"], [⟨true, [Val.vnull]⟩, ⟨false, [Val.vint 7]⟩])
    else Option.none
  txExec := fun _ => Option.none

/-- Oracle whose execs succeed without a last-insert id. -/
def tx9 : Tx where
  query := fun _ => Option.none
  txExec := fun _ => Option.some ⟨Except.error "a", Except.ok 1⟩

/-- Market environment with one mutating statement and the commit flag
set, everything succeeding. -/
def env9 : MarketEnv where
  name := "M2"
  sqlText := Option.some "UPDATE t;"
  openOk := true
  beginOk := true
  tx := tx9
  commitFlag := true
  commitOk := true
  rollbackOk := true

/-- Oracle that fails every call (never consulted on an empty script). -/
def txTrivial : Tx where
  query := fun _ => Option.none
  txExec := fun _ => Option.none

/-- Market environment whose selected SQL text is empty while
everything else succeeds (dry-run mode, rollback succeeding). -/
def env0 : MarketEnv where
  name := "M1"
  sqlText := Option.some ""
  openOk := true
  beginOk := true
  tx := txTrivial
  commitFlag := false
  commitOk := true
  rollbackOk := true

/-- Unfolding lemma for the scan on a character that does not start a
dollar marker. -/
theorem splitLoop_cons_ne (c : Char) (rest : List Char) (inD : Bool) (buf : List Char)
    (hc : c ≠ '$') :
    splitLoop (c :: rest) inD buf =
      if c == ';' && !inD then String.mk (buf ++ [c]) :: splitLoop rest inD []
      else splitLoop rest inD (buf ++ [c]) := by
  rw [splitLoop.eq_def]
  split
  · rename_i heq
    simp at heq
  · rename_i heq
    injection heq with h1 h2
    exact absurd h1 hc
  · rename_i heq
    injection heq with h1 h2
    subst h1; subst h2; rfl

/-- Outside a verbatim region, a run of characters free of `$` and `;`
is buffered without producing a boundary. -/
theorem splitLoop_append_plain (xs : List Char) (rest : List Char) (buf : List Char)
    (hx : ∀ c ∈ xs, c ≠ '$' ∧ c ≠ ';') :
    splitLoop (xs ++ rest) false buf = splitLoop rest false (buf ++ xs) := by
  induction xs generalizing buf with
  | nil => simp
  | cons x xs ih =>
    have hx1 := hx x (List.mem_cons_self x xs)
    rw [List.cons_append, splitLoop_cons_ne x (xs ++ rest) false buf hx1.1]
    have hcond : (x == ';' && !false) = false := by
      simp [hx1.2]
    rw [hcond]
    simp only [Bool.false_eq_true, if_false]
    rw [ih (buf ++ [x]) (fun c hc => hx c (List.mem_cons_of_mem x hc))]
    simp

/-- Inside a verbatim region, a run of characters free of `$` is
buffered without producing a boundary, separators included. -/
theorem splitLoop_append_verbatim (xs : List Char) (rest : List Char) (buf : List Char)
    (hx : ∀ c ∈ xs, c ≠ '$') :
    splitLoop (xs ++ rest) true buf = splitLoop rest true (buf ++ xs) := by
  induction xs generalizing buf with
  | nil => simp
  | cons x xs ih =>
    rw [List.cons_append, splitLoop_cons_ne x (xs ++ rest) true buf (hx x (List.mem_cons_self x xs))]
    simp only [Bool.not_true, Bool.and_false, Bool.false_eq_true, if_false]
    rw [ih (buf ++ [x]) (fun c hc => hx c (List.mem_cons_of_mem x hc))]
    simp

/-- A separator outside a verbatim region flushes the buffer with the
separator attached. -/
theorem splitLoop_semi (rest : List Char) (buf : List Char) :
    splitLoop (';' :: rest) false buf =
      String.mk (buf ++ [';']) :: splitLoop rest false [] := by
  rw [splitLoop_cons_ne ';' rest false buf (by decide)]
  simp

/-- A dollar marker toggles the verbatim state and is buffered whole. -/
theorem splitLoop_dollar (rest : List Char) (inD : Bool) (buf : List Char) :
    splitLoop ('$' :: '$' :: rest) inD buf = splitLoop rest (!inD) (buf ++ ['$', '$']) := rfl




theorem dropWhile_idem (p : Char → Bool) (l : List Char) :
    (l.dropWhile p).dropWhile p = l.dropWhile p := by
  cases h : l.dropWhile p with
  | nil => simp
  | cons a t =>
    have hh := List.head?_dropWhile_not p l
    rw [h] at hh
    simp only [List.head?_cons] at hh
    rw [List.dropWhile_cons_of_neg (by simp [hh])]

theorem rtrimL_idem (l : List Char) : rtrimL (rtrimL l) = rtrimL l := by
  unfold rtrimL
  rw [List.reverse_reverse, dropWhile_idem]

theorem rtrimL_head (l : List Char) :
    rtrimL l = [] ∨ ∃ t, rtrimL l = l.headD 'x' :: t := by
  cases l with
  | nil => left; rfl
  | cons c t =>
    unfold rtrimL
    rw [show (c :: t).reverse = t.reverse ++ [c] from by simp]
    rw [List.dropWhile_append]
    split
    · cases hgc : goSpace c
      · right
        refine ⟨[], ?_⟩
        rw [List.dropWhile_cons_of_neg (by simp [hgc])]
        simp
      · left
        rw [List.dropWhile_cons_of_pos (by simp [hgc])]
        simp
    · right
      exact ⟨(t.reverse.dropWhile goSpace).reverse, by simp⟩

theorem dropSpaceL_rtrimL (l : List Char) :
    dropSpaceL (rtrimL (dropSpaceL l)) = rtrimL (dropSpaceL l) := by
  rcases rtrimL_head (dropSpaceL l) with h | ⟨t, ht⟩
  · rw [h]; rfl
  · cases hy : dropSpaceL l with
    | nil => rw [hy] at ht; simp [rtrimL] at ht
    | cons a t2 =>
      rw [hy] at ht
      simp only [List.headD_cons] at ht
      have hh := List.head?_dropWhile_not goSpace l
      rw [show l.dropWhile goSpace = a :: t2 from hy] at hh
      simp only [List.head?_cons] at hh
      rw [hy] at *
      rw [ht]
      unfold dropSpaceL
      rw [List.dropWhile_cons_of_neg (by simp [hh])]

theorem goTrimL_idem (l : List Char) : goTrimL (goTrimL l) = goTrimL l := by
  unfold goTrimL
  rw [dropSpaceL_rtrimL, rtrimL_idem]

theorem rtrimL_concat (xs : List Char) (b : Char) (hb : goSpace b = false) :
    rtrimL (xs ++ [b]) = xs ++ [b] := by
  unfold rtrimL
  rw [List.reverse_append]
  simp only [List.reverse_cons, List.reverse_nil, List.nil_append, List.singleton_append]
  rw [List.dropWhile_cons_of_neg (by simp [hb])]
  simp

theorem goTrimL_cons_space (c : Char) (l : List Char) (h : goSpace c = true) :
    goTrimL (c :: l) = goTrimL l := by
  unfold goTrimL dropSpaceL
  rw [List.dropWhile_cons_of_pos (by simp [h])]

theorem goTrimL_eq_self (c : Char) (t : List Char) (b : Char)
    (hc : goSpace c = false) (hb : goSpace b = false) :
    goTrimL (c :: t ++ [b]) = c :: t ++ [b] := by
  unfold goTrimL dropSpaceL
  rw [List.cons_append, List.dropWhile_cons_of_neg (ne_true_of_eq_false hc),
    ← List.cons_append]
  exact rtrimL_concat (c :: t) b hb

theorem goTrimL_concat_ne_nil (xs : List Char) (c : Char) (hc : goSpace c = false) :
    goTrimL (xs ++ [c]) ≠ [] := by
  unfold goTrimL dropSpaceL
  rw [List.dropWhile_append]
  split
  · rw [List.dropWhile_cons_of_neg (ne_true_of_eq_false hc)]
    simp [rtrimL, hc]
  · rw [rtrimL_concat _ _ hc]
    simp

theorem string_mk_eq_empty_iff (l : List Char) : String.mk l = "" ↔ l = [] := by
  constructor
  · intro h
    have := congrArg String.data h
    simpa using this
  · intro h
    rw [h]


/-- A filter keeping only statements that differ from the empty string
never lets the empty string through. -/
theorem filter_ne_empty_contains (l : List String) :
    (l.filter (fun s => !(s == ""))).contains "" = false := by
  rw [Bool.eq_false_iff]
  intro h
  have hm : "" ∈ l.filter (fun s => !(s == "")) := List.mem_of_elem_eq_true h
  have := (List.mem_filter.mp hm).2
  simp at this

/-- Unpacking of the `plainStmt` side conditions. -/
theorem plainStmt_spec (s : String) (h : plainStmt s = true) :
    s.data ≠ [] ∧ (∀ c ∈ s.data, c ≠ '$' ∧ c ≠ ';') ∧
    goSpace (s.data.headD 'x') = false ∧ goSpace (s.data.getLastD 'x') = false := by
  unfold plainStmt at h
  simp only [Bool.and_eq_true, Bool.not_eq_true', List.all_eq_true] at h
  obtain ⟨⟨⟨hne, hall⟩, hh⟩, hl⟩ := h
  refine ⟨?_, ?_, hh, hl⟩
  · simp only [List.isEmpty_eq_false] at hne
    exact hne
  · intro c hc
    have := hall c hc
    simp only [Bool.and_eq_true, Bool.not_eq_true'] at this
    exact ⟨by simpa using this.2, by simpa using this.1⟩

/-- Raw split of a three-statement script with separator-free pieces:
each flushed element keeps its separator, and the second and third keep
the space that followed the previous separator. -/
theorem split_three (S1 S2 S3 : String)
    (h1 : ∀ c ∈ S1.data, c ≠ '$' ∧ c ≠ ';')
    (h2 : ∀ c ∈ S2.data, c ≠ '$' ∧ c ≠ ';')
    (h3 : ∀ c ∈ S3.data, c ≠ '$' ∧ c ≠ ';') :
    split (S1 ++ "; " ++ S2 ++ "; " ++ S3 ++ ";")
      = [String.mk (S1.data ++ [';']), String.mk (' ' :: S2.data ++ [';']),
         String.mk (' ' :: S3.data ++ [';'])] := by
  unfold split
  have hd : (S1 ++ "; " ++ S2 ++ "; " ++ S3 ++ ";").data
      = S1.data ++ (';' :: ((' ' :: S2.data) ++ (';' :: ((' ' :: S3.data) ++ [';'])))) := by
    simp [List.append_assoc]
  rw [hd]
  rw [splitLoop_append_plain S1.data _ [] h1]
  rw [splitLoop_semi]
  rw [splitLoop_append_plain (' ' :: S2.data) _ []
    (by
      intro c hc
      rcases List.mem_cons.mp hc with h | h
      · subst h; exact ⟨by decide, by decide⟩
      · exact h2 c h)]
  rw [splitLoop_semi]
  rw [splitLoop_append_plain (' ' :: S3.data) _ []
    (by
      intro c hc
      rcases List.mem_cons.mp hc with h | h
      · subst h; exact ⟨by decide, by decide⟩
      · exact h3 c h)]
  rw [splitLoop_semi]
  simp
  decide

/-- Trimming a non-empty statement with a non-space head and an
attached separator leaves it unchanged. -/
theorem goTrim_mk_concat (S : String) (hne : S.data ≠ [])
    (hh : goSpace (S.data.headD 'x') = false) :
    goTrimSpace (String.mk (S.data ++ [';'])) = S ++ ";" := by
  obtain ⟨c, t, hct⟩ := List.exists_cons_of_ne_nil hne
  apply String.ext
  show goTrimL (S.data ++ [';']) = (S ++ ";").data
  rw [String.data_append, hct]
  rw [hct] at hh
  simp only [List.headD_cons] at hh
  have h := goTrimL_eq_self c t ';' hh (by decide)
  simpa using h

/-- Like `goTrim_mk_concat`, with the single leading space the splitter
leaves after the previous separator. -/
theorem goTrim_mk_space_concat (S : String) (hne : S.data ≠ [])
    (hh : goSpace (S.data.headD 'x') = false) :
    goTrimSpace (String.mk (' ' :: S.data ++ [';'])) = S ++ ";" := by
  obtain ⟨c, t, hct⟩ := List.exists_cons_of_ne_nil hne
  apply String.ext
  show goTrimL ((' ' :: S.data) ++ [';']) = (S ++ ";").data
  rw [String.data_append, hct]
  rw [hct] at hh
  simp only [List.headD_cons] at hh
  have hsp : goTrimL ((' ' :: (c :: t)) ++ [';']) = goTrimL ((c :: t) ++ [';']) := by
    rw [List.cons_append]
    exact goTrimL_cons_space ' ' ((c :: t) ++ [';']) (by decide)
  rw [hsp]
  have h := goTrimL_eq_self c t ';' hh (by decide)
  simpa using h

/-- A statement with an attached separator is never the empty string. -/
theorem append_semi_ne_empty (S : String) : (S ++ ";") ≠ "" := by
  intro h
  have := congrArg String.data h
  simp at this


/-- C1 counterexample: a succeeding query with zero rows records the
nil outcome in its `QueryResult`, not an explicitly materialized empty
row list; the two shapes are distinct. -/
theorem C1_counterexample :
    execLoop txEmptySelect ["SELECT 1"] = ⟨[⟨"SELECT 1", DataVal.null⟩], 0, false⟩ ∧
    DataVal.null ≠ DataVal.rowList [] := by
  constructor
  · decide
  · decide

/-- C1 (amended): for every row-producing statement whose query
succeeds with zero rows, a `QueryResult` is still produced (never
omitted) but its recorded outcome is the nil/absent value, because the
row-list container is only constructed on the first row; execution
continues normally. -/
theorem C1_amended (tx : Tx) (s : String) (cols : List String) (rest : List String)
    (hne : goTrimSpace s ≠ "") (hsel : selectReMatch (goTrimSpace s) = true)
    (hq : tx.query (goTrimSpace s) = Option.some (cols, [])) :
    execLoop tx (s :: rest) =
      ⟨⟨goTrimSpace s, DataVal.null⟩ :: (execLoop tx rest).results,
       (execLoop tx rest).scanErrLog, (execLoop tx rest).failed⟩ := by
  simp only [execLoop, if_neg hne, runStmt, hsel, if_pos rfl, queryPath, hq]
  simp [runSelect]

/-- C1 witness: `C1_amended` at a concrete zero-row query. -/
theorem C1_witness :
    execLoop txEmptySelect ["SELECT 2"] = ⟨[⟨"SELECT 2", DataVal.null⟩], 0, false⟩ := by
  have h := C1_amended txEmptySelect "SELECT 2" ["c"] [] (by decide) (by decide) (by decide)
  simpa using h

/-- C2 counterexample: the script with an empty segment between two
separators does not split into the two bare statements the claim
names. -/
theorem C2_counterexample : splitStatements "A;;B;" ≠ ["A", "B"] := by decide

/-- C2 (amended): splitting the script with an empty segment between
consecutive separators yields three statements, each keeping its
separator — the whitespace-only segment survives as a lone separator
statement because a flushed buffer always contains its `;` and so never
trims to empty; and no statement that is empty after trimming ever
appears in the executed sequence. -/
theorem C2_amended :
    splitStatements "A;;B;" = ["A;", ";", "B;"] ∧
    ∀ script : String, (splitStatements script).contains "" = false := by
  refine ⟨by decide, ?_⟩
  intro script
  exact filter_ne_empty_contains _

/-- C3 counterexample: a three-statement script does not split into the
bare statement texts; the separators stay attached. -/
theorem C3_counterexample : splitStatements "A; B; C;" ≠ ["A", "B", "C"] := by decide

/-- C3 (amended): for separator-free, dollar-free statements with no
edge whitespace, a three-statement script splits into exactly the three
statements in order, each with its separator still attached; and a
single well-formed statement with no verbatim markers and no separator
splits into exactly one element, the trimmed statement text. -/
theorem C3_amended :
    (∀ S1 S2 S3 : String, plainStmt S1 = true → plainStmt S2 = true → plainStmt S3 = true →
      splitStatements (S1 ++ "; " ++ S2 ++ "; " ++ S3 ++ ";")
        = [S1 ++ ";", S2 ++ ";", S3 ++ ";"]) ∧
    (∀ s : String, s.data.all (fun c => !(c == ';') && !(c == '$')) = true →
      goTrimSpace s ≠ "" → splitStatements s = [goTrimSpace s]) := by
  constructor
  · intro S1 S2 S3 hp1 hp2 hp3
    obtain ⟨hne1, hall1, hh1, _⟩ := plainStmt_spec S1 hp1
    obtain ⟨hne2, hall2, hh2, _⟩ := plainStmt_spec S2 hp2
    obtain ⟨hne3, hall3, hh3, _⟩ := plainStmt_spec S3 hp3
    unfold splitStatements
    rw [split_three S1 S2 S3 hall1 hall2 hall3]
    simp only [List.map_cons, List.map_nil]
    rw [goTrim_mk_concat S1 hne1 hh1]
    rw [goTrim_mk_space_concat S2 hne2 hh2, goTrim_mk_space_concat S3 hne3 hh3]
    simp [List.filter_cons, append_semi_ne_empty]
  · intro s hall hne
    have hall2 : ∀ c ∈ s.data, c ≠ '$' ∧ c ≠ ';' := by
      intro c hc
      have h := List.all_eq_true.mp hall c hc
      simp only [Bool.and_eq_true, Bool.not_eq_true'] at h
      exact ⟨by simpa using h.2, by simpa using h.1⟩
    unfold splitStatements split
    have hloop : splitLoop s.data false [] = finishBuf s.data := by
      have h0 := splitLoop_append_plain s.data [] [] hall2
      simpa using h0
    rw [hloop]
    unfold finishBuf
    have hmk : String.mk s.data = s := rfl
    rw [hmk, if_neg hne]
    simp only [List.map_cons, List.map_nil]
    have hidem : goTrimSpace (goTrimSpace s) = goTrimSpace s := by
      apply String.ext
      show goTrimL (goTrimL s.data) = goTrimL s.data
      exact goTrimL_idem s.data
    rw [hidem]
    simp [List.filter_cons, hne]

/-- C3 witness: `C3_amended` at concrete statements. -/
theorem C3_witness :
    splitStatements "A; B; C;" = ["A;", "B;", "C;"] ∧
    splitStatements " SELECT 1 " = ["SELECT 1"] := by
  constructor
  · exact C3_amended.1 "A" "B" "C" (by decide) (by decide) (by decide)
  · have h := C3_amended.2 " SELECT 1 " (by decide) (by decide)
    rw [h]
    decide

/-- C4 counterexample: a market whose selected SQL text yields no
executable statements, with every connection and transaction step
succeeding, contributes zero rows to the report. -/
theorem C4_counterexample : (runMarket env0).1 = [] := by decide

/-- C4 (amended): every configured market produces at least one report
row, except in exactly one situation: the SQL lookup, connect, begin
and execution all succeed, the script produces no results (no
executable statements), and the final commit/rollback succeeds — then
zero rows are appended for that market. -/
theorem C4_amended (env : MarketEnv) (h : (runMarket env).1 = []) :
    ∃ s, env.sqlText = Option.some s ∧ env.openOk = true ∧ env.beginOk = true ∧
      (executeScript env.tx s).failed = false ∧ (executeScript env.tx s).results = [] ∧
      (env.commitFlag = true → env.commitOk = true) ∧
      (env.commitFlag = false → env.rollbackOk = true) := by
  obtain ⟨name, st, oo, bo, tx, cf, co, ro⟩ := env
  cases st with
  | none => simp [runMarket] at h
  | some s =>
    cases oo with
    | false => simp [runMarket] at h
    | true =>
      cases bo with
      | false => simp [runMarket] at h
      | true =>
        cases hf : (executeScript tx s).failed with
        | true => simp [runMarket, hf] at h
        | false =>
          cases cf with
          | true =>
            cases co with
            | false => simp [runMarket, hf] at h
            | true =>
              simp only [runMarket, hf] at h
              simp at h
              exact ⟨s, rfl, rfl, rfl, hf, by simpa using h, fun _ => rfl, by simp⟩
          | false =>
            cases ro with
            | false => simp [runMarket, hf] at h
            | true =>
              simp only [runMarket, hf] at h
              simp at h
              exact ⟨s, rfl, rfl, rfl, hf, by simpa using h, by simp, fun _ => rfl⟩

/-- C4 witness: `C4_amended` at the zero-statement market. -/
theorem C4_witness :
    ∃ s, env0.sqlText = Option.some s ∧ env0.openOk = true ∧ env0.beginOk = true ∧
      (executeScript env0.tx s).failed = false ∧ (executeScript env0.tx s).results = [] ∧
      (env0.commitFlag = true → env0.commitOk = true) ∧
      (env0.commitFlag = false → env0.rollbackOk = true) :=
  C4_amended env0 (by decide)

/-- C5: separators inside a balanced pair of `$$` markers are inert —
for any script of the shape plain text, a verbatim region (which may
contain separators), more plain text and a final separator, the split
yields exactly one statement; in particular the concrete script of the
claim splits into exactly one statement, not two. -/
theorem C5_verbatim :
    (∀ u v w : String,
      (∀ c ∈ u.data, c ≠ '$' ∧ c ≠ ';') → (∀ c ∈ v.data, c ≠ '$') →
      (∀ c ∈ w.data, c ≠ '$' ∧ c ≠ ';') →
      splitStatements (u ++ "$$" ++ v ++ "$$" ++ w ++ ";")
        = [goTrimSpace (u ++ "$$" ++ v ++ "$$" ++ w ++ ";")]) ∧
    splitStatements "INSERT INTO t VALUES ($$a;b$$);" = ["INSERT INTO t VALUES ($$a;b$$);"] := by
  constructor
  · intro u v w hu hv hw
    have hd : (u ++ "$$" ++ v ++ "$$" ++ w ++ ";").data
        = u.data ++ ('$' :: '$' :: (v.data ++ ('$' :: '$' :: (w.data ++ [';'])))) := by
      simp [List.append_assoc]
    have hsplit : split (u ++ "$$" ++ v ++ "$$" ++ w ++ ";")
        = [String.mk (u.data ++ ['$', '$'] ++ v.data ++ ['$', '$'] ++ w.data ++ [';'])] := by
      unfold split
      rw [hd]
      rw [splitLoop_append_plain u.data _ [] hu]
      rw [splitLoop_dollar]
      rw [show (!false) = true from rfl]
      rw [splitLoop_append_verbatim v.data _ _ hv]
      rw [splitLoop_dollar]
      rw [show (!true) = false from rfl]
      rw [show w.data ++ [';'] = w.data ++ (';' :: []) from rfl]
      rw [splitLoop_append_plain w.data _ _ hw]
      rw [splitLoop_semi]
      simp [List.append_assoc]
      decide
    unfold splitStatements
    rw [hsplit]
    have hmk : String.mk (u.data ++ ['$', '$'] ++ v.data ++ ['$', '$'] ++ w.data ++ [';'])
        = u ++ "$$" ++ v ++ "$$" ++ w ++ ";" := by
      apply String.ext
      simp [List.append_assoc]
    rw [hmk]
    simp only [List.map_cons, List.map_nil]
    have hne : goTrimSpace (u ++ "$$" ++ v ++ "$$" ++ w ++ ";") ≠ "" := by
      intro hcon
      have hdata := congrArg String.data hcon
      have hd2 : (u ++ "$$" ++ v ++ "$$" ++ w ++ ";").data
          = (u.data ++ ['$', '$'] ++ v.data ++ ['$', '$'] ++ w.data) ++ [';'] := by
        simp [List.append_assoc]
      unfold goTrimSpace at hdata
      rw [hd2] at hdata
      simp only [String.data] at hdata
      exact goTrimL_concat_ne_nil _ ';' (by decide) hdata
    have hbeq : (goTrimSpace (u ++ "$$" ++ v ++ "$$" ++ w ++ ";") == "") = false :=
      beq_eq_false_iff_ne.mpr hne
    simp [List.filter_cons, hbeq]
  · decide

/-- C5 witness: the general part of `C5_verbatim` at the claim's
concrete script. -/
theorem C5_witness :
    splitStatements ("INSERT INTO t VALUES (" ++ "$$" ++ "a;b" ++ "$$" ++ ")" ++ ";")
      = [goTrimSpace ("INSERT INTO t VALUES (" ++ "$$" ++ "a;b" ++ "$$" ++ ")" ++ ";")] :=
  C5_verbatim.1 "INSERT INTO t VALUES (" "a;b" ")" (by decide) (by decide) (by decide)

/-- C6: when the first statement succeeds and the second fails at
query/exec time, `executeScript`'s loop returns the result of the first
statement only together with the failure; the third statement is never
attempted and no `QueryResult` is produced for the failing one. -/
theorem C6_short_circuit (tx : Tx) (s1 s2 s3 : String) (d1 : DataVal) (n1 : Nat)
    (h1ne : goTrimSpace s1 ≠ "") (h2ne : goTrimSpace s2 ≠ "")
    (h1 : runStmt tx (goTrimSpace s1) = StmtOut.ok d1 n1)
    (h2 : runStmt tx (goTrimSpace s2) = StmtOut.failed) :
    execLoop tx [s1, s2, s3] = ⟨[⟨goTrimSpace s1, d1⟩], n1, true⟩ := by
  simp only [execLoop, if_neg h1ne, h1, if_neg h2ne, h2]
  simp

/-- C6 witness: `C6_short_circuit` on a concrete Ok/Fail/Ok batch. -/
theorem C6_witness :
    execLoop txC6 ["SELECT 1;", "UPDATE t;", "DROP TABLE u;"] =
      ⟨[⟨"SELECT 1;", DataVal.rowList [[("a", Val.vint 1)]]⟩], 0, true⟩ := by
  have h := C6_short_circuit txC6 "SELECT 1;" "UPDATE t;" "DROP TABLE u;"
    (DataVal.rowList [[("a", Val.vint 1)]]) 0
    (by decide) (by decide) (by decide) (by decide)
  simpa using h

/-- C7: a succeeding mutating statement reports exactly one summary,
tried in the fixed order last-insert id, then affected-row count, then
the literal executed marker; when the id call succeeds it takes
precedence regardless of the count. -/
theorem C7_mutation_priority (tx : Tx) (stmt : String) (res : ExecSummary)
    (hsel : selectReMatch stmt = false) (hx : tx.txExec stmt = Option.some res) :
    runStmt tx stmt = StmtOut.ok (summarizeExec res) 0 ∧
    (∀ id, res.lastInsertId = Except.ok id → summarizeExec res = DataVal.lastInsertId id) ∧
    (∀ e n, res.lastInsertId = Except.error e → res.rowsAffected = Except.ok n →
      summarizeExec res = DataVal.rowsAffected n) ∧
    (∀ e e2, res.lastInsertId = Except.error e → res.rowsAffected = Except.error e2 →
      summarizeExec res = DataVal.executed) := by
  refine ⟨?_, ?_, ?_, ?_⟩
  · simp [runStmt, hsel, execPath, hx]
  · intro id h
    unfold summarizeExec
    rw [h]
  · intro e n h h2
    unfold summarizeExec
    rw [h, h2]
  · intro e e2 h h2
    unfold summarizeExec
    rw [h, h2]

/-- C7 witness: with both driver calls available, the last-insert id is
the one reported. -/
theorem C7_witness :
    runStmt txC7 "INSERT INTO t VALUES (1);" = StmtOut.ok (DataVal.lastInsertId 5) 0 := by
  have h := C7_mutation_priority txC7 "INSERT INTO t VALUES (1);" ⟨Except.ok 5, Except.ok 3⟩
    (by decide) (by decide)
  have h2 := h.2.1 5 rfl
  rw [h.1, h2]

/-- C8: when the query itself succeeds, per-row scan errors are only
counted in the printed log — the statement still yields a `QueryResult`
with no execution failure, and processing continues with the remaining
statements; by contrast a failing query call aborts immediately. -/
theorem C8_scan_error_soft :
    (∀ (tx : Tx) (s : String) (rest : List String) (cols : List String) (rws : List Row),
      goTrimSpace s ≠ "" → selectReMatch (goTrimSpace s) = true →
      tx.query (goTrimSpace s) = Option.some (cols, rws) →
      execLoop tx (s :: rest) =
        ⟨⟨goTrimSpace s, (runSelect cols rws).1⟩ :: (execLoop tx rest).results,
         (rws.filter (fun r => r.scanErr)).length + (execLoop tx rest).scanErrLog,
         (execLoop tx rest).failed⟩) ∧
    (∀ (tx : Tx) (s : String) (rest : List String),
      goTrimSpace s ≠ "" → selectReMatch (goTrimSpace s) = true →
      tx.query (goTrimSpace s) = Option.none →
      execLoop tx (s :: rest) = ⟨[], 0, true⟩) := by
  constructor
  · intro tx s rest cols rws hne hsel hq
    simp only [execLoop, if_neg hne, runStmt, hsel, if_pos rfl, queryPath, hq]
    simp [runSelect]
  · intro tx s rest hne hsel hq
    simp only [execLoop, if_neg hne, runStmt, hsel, if_pos rfl, queryPath, hq]
    simp

/-- C8 witness: a two-row result whose first row scan fails is still
fully recorded with one logged error, while a failing query aborts. -/
theorem C8_witness :
    execLoop txC8 ["SELECT a FROM t"] =
      ⟨[⟨"SELECT a FROM t", DataVal.rowList [[("a", Val.vnull)], [("a", Val.vint 7)]]⟩],
       1, false⟩ ∧
    execLoop txC8 ["SELECT b FROM t"] = ⟨[], 0, true⟩ := by
  constructor
  · have h := C8_scan_error_soft.1 txC8 "SELECT a FROM t" []
      ["a"] [⟨true, [Val.vnull]⟩, ⟨false, [Val.vint 7]⟩]
      (by decide) (by decide) (by decide)
    simpa using h
  · have h := C8_scan_error_soft.2 txC8 "SELECT b FROM t" [] (by decide) (by decide) (by decide)
    simpa using h

/-- C9: whenever a transaction is opened for a market (SQL selected,
connect and begin succeed), exactly one of commit or rollback is
attempted on every exit path — commit exactly when execution succeeded
and the commit flag is set — and no finalizer is attempted when no
transaction was opened. -/
theorem C9_tx_finalized :
    (∀ (env : MarketEnv) (s : String),
      env.sqlText = Option.some s → env.openOk = true → env.beginOk = true →
      ((runMarket env).2 = Option.some TxAct.commit ∨
        (runMarket env).2 = Option.some TxAct.rollback) ∧
      ((runMarket env).2 = Option.some TxAct.commit ↔
        (executeScript env.tx s).failed = false ∧ env.commitFlag = true)) ∧
    (∀ env : MarketEnv,
      env.sqlText = Option.none ∨ env.openOk = false ∨ env.beginOk = false →
      (runMarket env).2 = Option.none) := by
  constructor
  · intro env s hs ho hb
    obtain ⟨name, st, oo, bo, tx, cf, co, ro⟩ := env
    replace hs : st = Option.some s := hs
    replace ho : oo = true := ho
    replace hb : bo = true := hb
    subst hs; subst ho; subst hb
    cases hf : (executeScript tx s).failed <;> cases cf <;> cases co <;> cases ro <;>
      simp [runMarket, hf]
  · intro env h
    obtain ⟨name, st, oo, bo, tx, cf, co, ro⟩ := env
    rcases h with h | h | h
    · replace h : st = Option.none := h
      subst h
      simp [runMarket]
    · replace h : oo = false := h
      subst h
      cases st <;> simp [runMarket]
    · replace h : bo = false := h
      subst h
      cases st <;> cases oo <;> simp [runMarket]

/-- C9 witness: `C9_tx_finalized` at a concrete committing market and
at the same market with no SQL selected. -/
theorem C9_witness :
    ((runMarket env9).2 = Option.some TxAct.commit ∨
      (runMarket env9).2 = Option.some TxAct.rollback) ∧
    ((runMarket env9).2 = Option.some TxAct.commit ↔
      (executeScript env9.tx "UPDATE t;").failed = false ∧ env9.commitFlag = true) ∧
    (runMarket { env9 with sqlText := Option.none }).2 = Option.none := by
  refine ⟨(C9_tx_finalized.1 env9 "UPDATE t;" rfl rfl rfl).1,
    (C9_tx_finalized.1 env9 "UPDATE t;" rfl rfl rfl).2,
    C9_tx_finalized.2 { env9 with sqlText := Option.none } (Or.inl rfl)⟩

/-- C10: classification looks only at the first six non-space
characters, case-insensitively, with no word-boundary check — any
statement whose text begins with those characters as a prefix of a
longer token (here the token selector followed by anything) matches the
regex and is executed on the query path, never the exec path. -/
theorem C10_classification (rest : String) (tx : Tx) :
    selectReMatch ("selector" ++ rest) = true ∧
    runStmt tx ("selector" ++ rest) = queryPath tx ("selector" ++ rest) := by
  have hm : selectReMatch ("selector" ++ rest) = true := by
    have hd : ("selector" ++ rest).data
        = 's' :: 'e' :: 'l' :: 'e' :: 'c' :: 't' :: 'o' :: 'r' :: rest.data := rfl
    unfold selectReMatch
    rw [hd]
    rfl
  exact ⟨hm, by unfold runStmt; rw [hm]; simp⟩

end MRun
